import Mathlib

/-!
# Verification of the mmeqopendata export pipeline (`src/dataexport.py`)

Shallow embedding of the data-export script: the calendar-month window
generator `generate_date_ranges`, the fetcher `fetch_quake_data`, the
validator `validate_quake_data`, and the two writers `save_to_csv` /
`save_to_json`, together with the record-count accumulation of `main`.

Timestamps are modelled as integer epoch seconds (the script renders them
at second precision), numeric fields as rationals, and the pandas
DataFrame of a raw batch as a list of records whose column set is the
union of the keys present in the records.
-/

namespace MMEQ

/-! ## Configuration constants (CONFIG SECTION of the script) -/

def START_YEAR : Nat := 1950
def END_YEAR : Nat := 2025
def END_MONTH : Nat := 3

def MIN_LAT : ℚ := -90
def MAX_LAT : ℚ := 90
def MIN_LON : ℚ := -180
def MAX_LON : ℚ := 180
def MIN_DEPTH : ℚ := 0
def MAX_DEPTH : ℚ := 700
def MIN_MAG : ℚ := 0
def MAX_MAG : ℚ := 10

/-! ## Calendar dates

The script formats `datetime` values with `%Y-%m-%d`; we model a formatted
date as the (year, month, day) triple it denotes. -/

structure Date where
  year : Nat
  month : Nat
  day : Nat
deriving DecidableEq, Repr

def isLeap (y : Nat) : Bool :=
  (y % 4 == 0 && y % 100 != 0) || y % 400 == 0

def daysInMonth (y m : Nat) : Nat :=
  if m = 2 then (if isLeap y then 29 else 28)
  else if m = 4 ∨ m = 6 ∨ m = 9 ∨ m = 11 then 30
  else 31

/-- The day after `d`, with month and year rollover. -/
def nextDay (d : Date) : Date :=
  if d.day < daysInMonth d.year d.month then ⟨d.year, d.month, d.day + 1⟩
  else if d.month < 12 then ⟨d.year, d.month + 1, 1⟩
  else ⟨d.year + 1, 1, 1⟩

/-- Absolute month index, used to compare calendar months. -/
def monthIdx (y m : Nat) : Nat := y * 12 + (m - 1)

/-! ## `generate_date_ranges` -/

/-- One element of the list returned by `generate_date_ranges`:
`(year, month, from_date, to_date)`. -/
structure DateRange where
  year : Nat
  month : Nat
  from_date : Date
  to_date : Date
deriving DecidableEq, Repr

/-- The months the inner loop emits for one year: `range(1, 13)` with the
`break` once `year == END_YEAR and month > END_MONTH`.  Because the break
condition is monotone in `month`, the `break` is a `takeWhile`. -/
def monthsOf (year : Nat) : List Nat :=
  (((List.range 12).map (· + 1)).takeWhile
    fun month => !(year == END_YEAR && month > END_MONTH))

/-- `dt_from + relativedelta(months=1, days=-1)` from the first of a month
is the last day of that month. -/
def generate_date_ranges : List DateRange :=
  (((List.range (END_YEAR + 1 - START_YEAR)).map (· + START_YEAR)).flatMap
    fun year =>
      (monthsOf year).map fun month =>
        { year := year, month := month
          from_date := ⟨year, month, 1⟩
          to_date := ⟨year, month, daysInMonth year month⟩ })

/-- Modelled from the spec: the incremental DateWindowGenerator contract —
"given (a) the maximum timestamp found in the existing Combined dataset …
and (b) a cutoff timestamp …, produce the ordered sequence of
calendar-month windows strictly after the last known date and up to the
cutoff", i.e. the months between "last known data + 1 day" and the cutoff
inclusive.  No such state-reading generator exists in `src/`;
`generate_date_ranges` takes no input at all. -/
def spec_incremental_windows (lastKnown cutoff : Date) : List DateRange :=
  let first := nextDay lastKnown
  let lo := monthIdx first.year first.month
  let hi := monthIdx cutoff.year cutoff.month
  if hi < lo then []
  else
    (((List.range (hi + 1 - lo)).map (· + lo)).map fun i =>
      let y := i / 12
      let m := i % 12 + 1
      { year := y, month := m
        from_date := ⟨y, m, 1⟩
        to_date := ⟨y, m, daysInMonth y m⟩ })

/-- Boolean check that `rel` holds between each pair of adjacent list
elements (an executable form of `List.Chain'`). -/
def chainB (rel : DateRange → DateRange → Bool) : List DateRange → Bool
  | [] => true
  | [_] => true
  | a :: b :: rest => rel a b && chainB rel (b :: rest)

theorem chainB_eq_true_iff_chain' (rel : DateRange → DateRange → Bool) :
    ∀ l : List DateRange,
      chainB rel l = true ↔ List.Chain' (fun a b => rel a b = true) l
  | [] => by simp [chainB]
  | [_] => by simp [chainB]
  | a :: b :: rest => by
    rw [List.chain'_cons, ← chainB_eq_true_iff_chain' rel (b :: rest)]
    simp [chainB]

/-! ## Raw records and `validate_quake_data`

A raw batch is modelled as a list of `RawRecord`s.  A pandas DataFrame
built from such a batch has a column for a key exactly when some record
of the batch carries that key; a record lacking a key that others carry
reads as NaN in that column.  For the `time` and numeric columns the
outer `Option` is key presence and the inner `Option` is the result of
the coercion (`pd.to_datetime(..., errors="coerce")` /
`pd.to_numeric(..., errors="coerce")`): `none` for an unparseable value.
`extra` stands for any additional dynamically-shaped column the remote
source may send (the script never names it, but `drop_duplicates`
compares it and the final column projection drops it). -/

structure RawRecord where
  time : Option (Option Int)
  latitude : Option (Option ℚ)
  longitude : Option (Option ℚ)
  depth : Option (Option ℚ)
  mag : Option (Option ℚ)
  location : Option String
  country : Option String
  extra : Option String
deriving DecidableEq, Repr

/-- A row of the frame once `time` is parsed and the numeric columns are
coerced, all with non-null results. -/
structure ParsedRecord where
  time : Int
  latitude : ℚ
  longitude : ℚ
  depth : ℚ
  mag : ℚ
  location : Option String
  country : Option String
  extra : Option String
deriving DecidableEq, Repr

/-- The persisted canonical row, in the fixed column order
`time_utc, time_mmt, latitude, longitude, depth, mag, location, country`.
Timestamps are epoch seconds; `time_mmt` is the same instant rendered in
Asia/Yangon (UTC+06:30). -/
structure CanonicalRecord where
  time_utc : Int
  time_mmt : Int
  latitude : ℚ
  longitude : ℚ
  depth : ℚ
  mag : ℚ
  location : Option String
  country : Option String
deriving DecidableEq, Repr

/-- `pd.Timestamp("1950-01-01", tz=utc)` in epoch seconds. -/
def startEpoch : Int := -631152000
/-- `pd.Timestamp("2025-12-31 23:59:59", tz=utc)` in epoch seconds. -/
def endEpoch : Int := 1767225599
/-- Asia/Yangon is UTC+06:30 for the whole accepted time range. -/
def yangonOffset : Int := 23400

/-- Parsing and coercion of one row: `some` iff the row survives the
`dropna` over the parsed `time` and numeric columns. -/
def parsedOf (r : RawRecord) : Option ParsedRecord :=
  match r.time.bind id, r.latitude.bind id, r.longitude.bind id,
      r.depth.bind id, r.mag.bind id with
  | some t, some la, some lo, some de, some ma =>
      some ⟨t, la, lo, de, ma, r.location, r.country, r.extra⟩
  | _, _, _, _, _ => none

/-- The conjunction of the timestamp-range filter and the four
`Series.between` masks (all bounds inclusive). -/
def parsedOk (p : ParsedRecord) : Bool :=
  (startEpoch ≤ p.time && p.time ≤ endEpoch) &&
  (MIN_LAT ≤ p.latitude && p.latitude ≤ MAX_LAT) &&
  (MIN_LON ≤ p.longitude && p.longitude ≤ MAX_LON) &&
  (MIN_DEPTH ≤ p.depth && p.depth ≤ MAX_DEPTH) &&
  (MIN_MAG ≤ p.mag && p.mag ≤ MAX_MAG)

/-- `DataFrame.drop_duplicates()`: keep the first occurrence of each row,
comparing every column of the frame. -/
def dropDupAux (seen : List ParsedRecord) :
    List ParsedRecord → List ParsedRecord
  | [] => []
  | p :: ps =>
      if p ∈ seen then dropDupAux seen ps
      else p :: dropDupAux (p :: seen) ps

/-- The projection `df[cols_order]` after the two `strftime` columns are
derived: `time_utc` is the parsed instant, `time_mmt` the same instant
shifted to UTC+06:30, and the `extra` column is dropped. -/
def toCanonical (p : ParsedRecord) : CanonicalRecord :=
  ⟨p.time, p.time + yangonOffset, p.latitude, p.longitude, p.depth, p.mag,
    p.location, p.country⟩

/-- `df.empty`: no rows, or no columns (no record carries any key). -/
def isEmptyDf (batch : List RawRecord) : Bool :=
  batch.all fun r =>
    r.time.isNone && r.latitude.isNone && r.longitude.isNone &&
    r.depth.isNone && r.mag.isNone && r.location.isNone &&
    r.country.isNone && r.extra.isNone

/-- A column is present in the frame iff some record carries the key. -/
def hasCol (f : RawRecord → Bool) (batch : List RawRecord) : Bool :=
  batch.any f

/-- The rows that survive every filter of the validator, in input order. -/
def survivors (batch : List RawRecord) : List ParsedRecord :=
  (batch.filterMap parsedOf).filter parsedOk

/-- `validate_quake_data`.  `none` models the uncaught pandas `KeyError`
raised when a column the function accesses (`time`, the four numeric
columns at `pd.to_numeric`, or `location`/`country` at the final
`df[cols_order]` projection) is absent from a non-empty frame. -/
def validate_quake_data (batch : List RawRecord) :
    Option (List CanonicalRecord) :=
  if isEmptyDf batch then some []
  else if !hasCol (fun r => r.time.isSome) batch then none
  else if !hasCol (fun r => r.latitude.isSome) batch then none
  else if !hasCol (fun r => r.longitude.isSome) batch then none
  else if !hasCol (fun r => r.depth.isSome) batch then none
  else if !hasCol (fun r => r.mag.isSome) batch then none
  else if !hasCol (fun r => r.location.isSome) batch then none
  else if !hasCol (fun r => r.country.isSome) batch then none
  else some ((dropDupAux [] (survivors batch)).map toCanonical)

/-! ## `save_to_csv` and `save_to_json`

A CSV partition file is a list of lines (the header line or a data row);
a JSON partition file is the list under its `"earthquakes"` key.  A file
that does not exist on disk is `none`. -/

inductive CsvLine
  | header
  | row (r : CanonicalRecord)
deriving DecidableEq, Repr

/-- `df.to_csv(path, mode="a", header=not os.path.exists(path))`, behind
the `df.empty` early return. -/
def save_to_csv (df : List CanonicalRecord) (file : Option (List CsvLine)) :
    Option (List CsvLine) :=
  if df.isEmpty then file
  else
    match file with
    | none => some (CsvLine.header :: df.map CsvLine.row)
    | some lines => some (lines ++ df.map CsvLine.row)

/-- `json.dump({"earthquakes": quake_list}, open(path, "w"))`, behind the
`df.empty` early return. -/
def save_to_json (df : List CanonicalRecord)
    (file : Option (List CanonicalRecord)) : Option (List CanonicalRecord) :=
  if df.isEmpty then file else some df

/-- The data rows of a CSV file, header lines dropped. -/
def csvRows (lines : List CsvLine) : List CanonicalRecord :=
  lines.filterMap fun l =>
    match l with
    | CsvLine.header => none
    | CsvLine.row r => some r

def isHeader : CsvLine → Bool
  | CsvLine.header => true
  | CsvLine.row _ => false

/-! ## `fetch_quake_data` and the accumulation in `main` -/

/-- The observable outcome of one window's HTTP request. `ok earthquakes`
is a 2xx response whose body parsed as JSON, carrying the value of the
`"earthquakes"` key when present; `err` is any failure the `except`
catches: network error, timeout, `raise_for_status` on a non-2xx status,
or a body that fails to parse. -/
inductive HttpOutcome
  | ok (earthquakes : Option (List RawRecord))
  | err
deriving Repr

/-- `fetch_quake_data`: `data.get("earthquakes", [])` on success, an
empty frame on any exception. -/
def fetch_quake_data : HttpOutcome → List RawRecord
  | HttpOutcome.ok earthquakes => earthquakes.getD []
  | HttpOutcome.err => []

/-- One window's work in `main`: fetch, then validate. -/
def processWindow (o : HttpOutcome) : Option (List CanonicalRecord) :=
  validate_quake_data (fetch_quake_data o)

/-- The record set `main` accumulates into `combined_df` over a run, one
window at a time (`pd.concat([combined_df, df_valid])`); an uncaught
validation error aborts the run, hence the `Option`.  `as_completed`
makes the merge order arbitrary, which leaves the record count —
the quantity the claims speak about — unchanged, so windows are folded
in list order. -/
def mainCombined : List HttpOutcome → Option (List CanonicalRecord)
  | [] => some []
  | o :: os =>
    match processWindow o, mainCombined os with
    | some v, some rest => some (v ++ rest)
    | _, _ => none

/-- The number of valid records a window contributes. -/
def validCount (o : HttpOutcome) : Nat :=
  ((processWindow o).getD []).length

/-! ## Concrete records used to instantiate the theorems -/

/-- An in-bounds raw record (1970-01-01 00:00:00 UTC, Mandalay). -/
def rawA : RawRecord :=
  ⟨some (some 0), some (some 16), some (some 96), some (some 10),
    some (some 5), some "Mandalay", some "Myanmar", some "a"⟩

/-- Identical to `rawA` on every canonical column, different `extra`. -/
def rawB : RawRecord :=
  ⟨some (some 0), some (some 16), some (some 96), some (some 10),
    some (some 5), some "Mandalay", some "Myanmar", some "b"⟩

/-- The canonical projection shared by `rawA` and `rawB`. -/
def canAB : CanonicalRecord :=
  ⟨0, 23400, 16, 96, 10, 5, some "Mandalay", some "Myanmar"⟩

/-- An in-bounds raw record (Bago), `extra` column `"id1"`. -/
def rawC : RawRecord :=
  ⟨some (some 86400), some (some 17), some (some 95), some (some 30),
    some (some 6), some "Bago", some "Myanmar", some "id1"⟩

/-- Identical to `rawC` on every canonical column, different `extra`. -/
def rawD : RawRecord :=
  ⟨some (some 86400), some (some 17), some (some 95), some (some 30),
    some (some 6), some "Bago", some "Myanmar", some "id2"⟩

/-- The canonical projection shared by `rawC` and `rawD`. -/
def canCD : CanonicalRecord :=
  ⟨86400, 86400 + 23400, 17, 95, 30, 6, some "Bago", some "Myanmar"⟩

/-- In-bounds timestamp and numeric fields, but no `location` and no
`country` key. -/
def rawE : RawRecord :=
  ⟨some (some 0), some (some 16), some (some 96), some (some 10),
    some (some 5), none, none, none⟩

/-! ## C1 — window generation is not incremental -/

set_option maxRecDepth 10000

/-- A calendar-month window from its absolute month index. -/
def fixedMonthWindow (i : Nat) : DateRange :=
  let y := i / 12
  let m := i % 12 + 1
  ⟨y, m, ⟨y, m, 1⟩, ⟨y, m, daysInMonth y m⟩⟩

/-- C1, counterexample.  With the store already up to date (last known
persisted date 2025-03-31, cutoff 2025-03-31) the spec's incremental
contract demands zero windows, but `generate_date_ranges` — which reads
no persisted state — still produces all 903 windows. -/
theorem C1_counterexample :
    spec_incremental_windows ⟨2025, 3, 31⟩ ⟨2025, 3, 31⟩ = [] ∧
    generate_date_ranges.length = 903 ∧
    generate_date_ranges ≠ spec_incremental_windows ⟨2025, 3, 31⟩ ⟨2025, 3, 31⟩ :=
  ⟨by decide, by decide, by decide⟩

/-- C1, amended: `generate_date_ranges` takes no input and ignores any
persisted state; it always returns the fixed sequence of every
calendar-month window from January `START_YEAR` (1950) through
`END_MONTH` of `END_YEAR` (March 2025) — 903 windows, indexed by
consecutive absolute month index — and in particular never returns zero
windows. -/
theorem C1_amended_thm :
    generate_date_ranges =
      (List.range 903).map (fun k => fixedMonthWindow (monthIdx START_YEAR 1 + k)) ∧
    generate_date_ranges.length = 903 ∧
    generate_date_ranges ≠ [] :=
  ⟨by decide, by decide, by decide⟩

/-! ## C7 — shape, order and contiguity of the generated windows -/

/-- C7.  The generated windows are contiguous (each window starts the day
after the previous one ends, which forces the December → January year
rollover), strictly ordered — hence pairwise non-overlapping — by
(year, month), each carries the first and last calendar day of its month
as inclusive bounds, an explicit rollover step December of year Y →
January of year Y+1 holds between adjacent windows, and the January 2024
window is generated. -/
theorem C7_thm :
    List.Chain' (fun a b => b.from_date = nextDay a.to_date) generate_date_ranges ∧
    List.Pairwise
      (fun a b => monthIdx a.year a.month < monthIdx b.year b.month)
      generate_date_ranges ∧
    generate_date_ranges.all
      (fun w => w.from_date == ⟨w.year, w.month, 1⟩ &&
        w.to_date == ⟨w.year, w.month, daysInMonth w.year w.month⟩ &&
        1 ≤ w.month && w.month ≤ 12) = true ∧
    List.Chain'
      (fun a b => a.month = 12 → b.year = a.year + 1 ∧ b.month = 1)
      generate_date_ranges ∧
    (⟨2024, 1, ⟨2024, 1, 1⟩, ⟨2024, 1, 31⟩⟩ : DateRange) ∈ generate_date_ranges := by
  have hcontig :
      List.Chain' (fun a b : DateRange => b.from_date = nextDay a.to_date)
        generate_date_ranges := by
    have h := (chainB_eq_true_iff_chain'
      (fun a b => decide (b.from_date = nextDay a.to_date))
      generate_date_ranges).mp (by decide)
    exact h.imp fun _ _ h' => of_decide_eq_true h'
  have hlt :
      List.Chain'
        (fun a b : DateRange => monthIdx a.year a.month < monthIdx b.year b.month)
        generate_date_ranges := by
    have h := (chainB_eq_true_iff_chain'
      (fun a b => decide (monthIdx a.year a.month < monthIdx b.year b.month))
      generate_date_ranges).mp (by decide)
    exact h.imp fun _ _ h' => of_decide_eq_true h'
  have hroll :
      List.Chain'
        (fun a b : DateRange => a.month = 12 → b.year = a.year + 1 ∧ b.month = 1)
        generate_date_ranges := by
    have h := (chainB_eq_true_iff_chain'
      (fun a b => decide (a.month = 12 → b.year = a.year + 1 ∧ b.month = 1))
      generate_date_ranges).mp (by decide)
    exact h.imp fun _ _ h' => of_decide_eq_true h'
  haveI : IsTrans DateRange
      (fun a b => monthIdx a.year a.month < monthIdx b.year b.month) :=
    ⟨fun _ _ _ hab hbc => Nat.lt_trans hab hbc⟩
  exact ⟨hcontig, List.chain'_iff_pairwise.mp hlt, by decide, hroll, by decide⟩

/-! ## Store lemmas -/

theorem csvRows_map_row (df : List CanonicalRecord) :
    csvRows (df.map CsvLine.row) = df := by
  induction df with
  | nil => rfl
  | cons c t ih => simp [csvRows, List.filterMap_cons] at ih ⊢; exact ih

theorem csvRows_append (l1 l2 : List CsvLine) :
    csvRows (l1 ++ l2) = csvRows l1 ++ csvRows l2 := by
  simp [csvRows, List.filterMap_append]

theorem csvRows_header_cons (l : List CsvLine) :
    csvRows (CsvLine.header :: l) = csvRows l := by
  simp [csvRows, List.filterMap_cons]

theorem filter_isHeader_map_row (df : List CanonicalRecord) :
    (df.map CsvLine.row).filter isHeader = [] := by
  induction df with
  | nil => rfl
  | cons c t ih => simp [isHeader, ih]

theorem save_to_csv_nonempty_none (df : List CanonicalRecord) (h : df ≠ []) :
    save_to_csv df none = some (CsvLine.header :: df.map CsvLine.row) := by
  cases df with
  | nil => exact absurd rfl h
  | cons c t => rfl

theorem save_to_csv_nonempty_some (df : List CanonicalRecord)
    (lines : List CsvLine) (h : df ≠ []) :
    save_to_csv df (some lines) = some (lines ++ df.map CsvLine.row) := by
  cases df with
  | nil => exact absurd rfl h
  | cons c t => rfl

theorem save_to_json_nonempty (df : List CanonicalRecord)
    (file : Option (List CanonicalRecord)) (h : df ≠ []) :
    save_to_json df file = some df := by
  cases df with
  | nil => exact absurd rfl h
  | cons c t => rfl

/-! ## C2 — the two serialized forms diverge on a rewrite -/

/-- C2, counterexample.  Writing the same one-record batch twice to the
same partition leaves the CSV file with the batch appended twice but the
JSON file holding only the last batch: the two forms no longer hold the
same record content. -/
theorem C2_counterexample :
    save_to_csv [canAB] (save_to_csv [canAB] none) =
      some [CsvLine.header, CsvLine.row canAB, CsvLine.row canAB] ∧
    save_to_json [canAB] (save_to_json [canAB] none) = some [canAB] ∧
    csvRows [CsvLine.header, CsvLine.row canAB, CsvLine.row canAB] ≠ [canAB] :=
  ⟨rfl, rfl, by decide⟩

/-- C2, amended: after the first write to a fresh partition the CSV rows
and the JSON list hold the same record content; a second write appends to
the CSV but replaces the JSON, so the CSV then holds both batches while
the JSON holds only the last one. -/
theorem C2_amended_thm (df1 df2 : List CanonicalRecord)
    (h1 : df1 ≠ []) (h2 : df2 ≠ []) :
    (save_to_csv df1 none).elim [] csvRows = df1 ∧
    save_to_json df1 none = some df1 ∧
    (save_to_csv df2 (save_to_csv df1 none)).elim [] csvRows = df1 ++ df2 ∧
    save_to_json df2 (save_to_json df1 none) = some df2 := by
  rw [save_to_csv_nonempty_none df1 h1, save_to_json_nonempty df1 none h1,
    save_to_csv_nonempty_some df2 _ h2,
    save_to_json_nonempty df2 _ h2]
  refine ⟨?_, rfl, ?_, rfl⟩
  · simp only [Option.elim]
    rw [csvRows_header_cons, csvRows_map_row]
  · simp only [Option.elim, List.cons_append]
    rw [csvRows_header_cons, csvRows_append, csvRows_map_row, csvRows_map_row]

theorem C2_amended_witness :
    (save_to_csv [canAB] none).elim [] csvRows = [canAB] ∧
    save_to_json [canAB] none = some [canAB] ∧
    (save_to_csv [canCD] (save_to_csv [canAB] none)).elim [] csvRows =
      [canAB] ++ [canCD] ∧
    save_to_json [canCD] (save_to_json [canAB] none) = some [canCD] :=
  C2_amended_thm [canAB] [canCD] (by decide) (by decide)

/-! ## C8 — append twice on a fresh partition: one header, rows twice -/

/-- C8.  On a fresh (non-existent) partition, appending a non-empty
record set `R` twice yields exactly one header line followed by the rows
of `R` written twice, with no deduplication across the two calls. -/
theorem C8_thm (R : List CanonicalRecord) (h : R ≠ []) :
    save_to_csv R (save_to_csv R none) =
      some (CsvLine.header :: (R.map CsvLine.row ++ R.map CsvLine.row)) ∧
    ((CsvLine.header :: (R.map CsvLine.row ++ R.map CsvLine.row)).filter
      isHeader).length = 1 ∧
    csvRows (CsvLine.header :: (R.map CsvLine.row ++ R.map CsvLine.row)) =
      R ++ R := by
  rw [save_to_csv_nonempty_none R h, save_to_csv_nonempty_some R _ h]
  refine ⟨rfl, ?_, ?_⟩
  · rw [List.filter_cons]
    simp [isHeader, List.filter_append, filter_isHeader_map_row]
  · rw [csvRows_header_cons, csvRows_append, csvRows_map_row]

theorem C8_witness :
    save_to_csv [canAB] (save_to_csv [canAB] none) =
      some (CsvLine.header ::
        ([canAB].map CsvLine.row ++ [canAB].map CsvLine.row)) ∧
    ((CsvLine.header ::
      ([canAB].map CsvLine.row ++ [canAB].map CsvLine.row)).filter
        isHeader).length = 1 ∧
    csvRows (CsvLine.header ::
      ([canAB].map CsvLine.row ++ [canAB].map CsvLine.row)) =
      [canAB] ++ [canAB] :=
  C8_thm [canAB] (by decide)

/-! ## C9 — writing an empty record set is a no-op -/

/-- C9.  For every CSV and JSON partition file state — including a
non-existent file — writing an empty record set changes nothing: an
existing file keeps its content and a missing file is not created. -/
theorem C9_thm (csvFile : Option (List CsvLine))
    (jsonFile : Option (List CanonicalRecord)) :
    save_to_csv [] csvFile = csvFile ∧ save_to_json [] jsonFile = jsonFile :=
  ⟨rfl, rfl⟩

/-! ## C10 — a body without the `"earthquakes"` key reads as zero quakes -/

/-- C10.  A successful response whose JSON object lacks the
`"earthquakes"` key makes `fetch_quake_data` return an empty record set —
the same value as a response carrying an empty list — and the validator
passes it through as zero records, so the two responses are
indistinguishable downstream. -/
theorem C10_thm :
    fetch_quake_data (HttpOutcome.ok none) = [] ∧
    fetch_quake_data (HttpOutcome.ok none) =
      fetch_quake_data (HttpOutcome.ok (some [])) ∧
    validate_quake_data (fetch_quake_data (HttpOutcome.ok none)) = some [] :=
  ⟨rfl, rfl, rfl⟩

/-! ## Validator lemmas -/

theorem mem_dropDupAux (p : ParsedRecord) :
    ∀ (l seen : List ParsedRecord), p ∈ dropDupAux seen l ↔ p ∈ l ∧ p ∉ seen
  | [], seen => by simp [dropDupAux]
  | q :: t, seen => by
    unfold dropDupAux
    by_cases hq : q ∈ seen
    · rw [if_pos hq, mem_dropDupAux p t seen]
      constructor
      · exact fun ⟨h1, h2⟩ => ⟨List.mem_cons_of_mem q h1, h2⟩
      · rintro ⟨h1, h2⟩
        rcases List.mem_cons.mp h1 with rfl | h1
        · exact absurd hq h2
        · exact ⟨h1, h2⟩
    · rw [if_neg hq, List.mem_cons, mem_dropDupAux p t (q :: seen)]
      constructor
      · rintro (rfl | ⟨h1, h2⟩)
        · exact ⟨List.mem_cons_self p t, hq⟩
        · exact ⟨List.mem_cons_of_mem q h1,
            fun hs => h2 (List.mem_cons_of_mem q hs)⟩
      · rintro ⟨h1, h2⟩
        rcases List.mem_cons.mp h1 with rfl | h1
        · exact Or.inl rfl
        · by_cases hpq : p = q
          · exact Or.inl hpq
          · refine Or.inr ⟨h1, fun hs => ?_⟩
            rcases List.mem_cons.mp hs with h' | h'
            · exact hpq h'
            · exact h2 h'

theorem nodup_dropDupAux :
    ∀ (l seen : List ParsedRecord), (dropDupAux seen l).Nodup
  | [], _ => List.nodup_nil
  | q :: t, seen => by
    unfold dropDupAux
    by_cases hq : q ∈ seen
    · rw [if_pos hq]
      exact nodup_dropDupAux t seen
    · rw [if_neg hq]
      refine List.nodup_cons.mpr ⟨fun hmem => ?_, nodup_dropDupAux t (q :: seen)⟩
      exact ((mem_dropDupAux q t (q :: seen)).mp hmem).2 (List.mem_cons_self q seen)

theorem mem_survivors (batch : List RawRecord) (p : ParsedRecord) :
    p ∈ survivors batch ↔
      (∃ r ∈ batch, parsedOf r = some p) ∧ parsedOk p = true := by
  simp [survivors, List.mem_filter, List.mem_filterMap]

theorem bind_id_eq_some {α : Type} (o : Option (Option α)) (v : α)
    (h : o.bind id = some v) : o = some (some v) := by
  cases o with
  | none => simp at h
  | some x => simp only [Option.bind_some, id] at h; exact congrArg some h

/-- A row that survives parsing carried every required key, with the
parsed values the row now holds. -/
theorem parsedOf_eq_some (r : RawRecord) (p : ParsedRecord)
    (h : parsedOf r = some p) :
    r.time = some (some p.time) ∧ r.latitude = some (some p.latitude) ∧
    r.longitude = some (some p.longitude) ∧ r.depth = some (some p.depth) ∧
    r.mag = some (some p.mag) := by
  unfold parsedOf at h
  split at h
  next t la lo de ma ht hla hlo hde hma =>
    injection h with h'
    subst h'
    exact ⟨bind_id_eq_some _ _ ht, bind_id_eq_some _ _ hla,
      bind_id_eq_some _ _ hlo, bind_id_eq_some _ _ hde,
      bind_id_eq_some _ _ hma⟩
  next => exact absurd h (by simp)

/-- What a successful run of the validator returns: the empty frame is
passed through, and otherwise the output is the canonical projection of
the deduplicated surviving rows. -/
theorem validate_eq_some (batch : List RawRecord) (out : List CanonicalRecord)
    (h : validate_quake_data batch = some out) :
    (isEmptyDf batch = true ∧ out = []) ∨
      out = (dropDupAux [] (survivors batch)).map toCanonical := by
  unfold validate_quake_data at h
  split at h
  · exact Or.inl ⟨by assumption, (Option.some.inj h).symm⟩
  · split at h
    · exact absurd h (by simp)
    · split at h
      · exact absurd h (by simp)
      · split at h
        · exact absurd h (by simp)
        · split at h
          · exact absurd h (by simp)
          · split at h
            · exact absurd h (by simp)
            · split at h
              · exact absurd h (by simp)
              · split at h
                · exact absurd h (by simp)
                · exact Or.inr (Option.some.inj h).symm

/-- The validator succeeds when the frame is non-empty and every column
it touches is present. -/
theorem validate_success (batch : List RawRecord) (hne : isEmptyDf batch = false)
    (ht : hasCol (fun r => r.time.isSome) batch = true)
    (hla : hasCol (fun r => r.latitude.isSome) batch = true)
    (hlo : hasCol (fun r => r.longitude.isSome) batch = true)
    (hde : hasCol (fun r => r.depth.isSome) batch = true)
    (hma : hasCol (fun r => r.mag.isSome) batch = true)
    (hlc : hasCol (fun r => r.location.isSome) batch = true)
    (hco : hasCol (fun r => r.country.isSome) batch = true) :
    validate_quake_data batch =
      some ((dropDupAux [] (survivors batch)).map toCanonical) := by
  unfold validate_quake_data
  simp [hne, ht, hla, hlo, hde, hma, hlc, hco]

/-- Prepending a byte-identical duplicate of the leading raw record does
not change the validator's output. -/
theorem validate_dup_head (r : RawRecord) (batch : List RawRecord) :
    validate_quake_data (r :: r :: batch) = validate_quake_data (r :: batch) := by
  have hemp : isEmptyDf (r :: r :: batch) = isEmptyDf (r :: batch) := by
    simp only [isEmptyDf, List.all_cons, ← Bool.and_assoc, Bool.and_self]
  have hcol : ∀ f : RawRecord → Bool,
      hasCol f (r :: r :: batch) = hasCol f (r :: batch) := by
    intro f
    simp only [hasCol, List.any_cons, ← Bool.or_assoc, Bool.or_self]
  have hsurv : dropDupAux [] (survivors (r :: r :: batch)) =
      dropDupAux [] (survivors (r :: batch)) := by
    simp only [survivors, List.filterMap_cons]
    cases hp : parsedOf r with
    | none => rfl
    | some p =>
      simp only [List.filter_cons]
      cases hok : parsedOk p with
      | false => simp
      | true => simp [dropDupAux]
  unfold validate_quake_data
  rw [hemp, hcol, hcol, hcol, hcol, hcol, hcol, hcol, hsurv]

/-! ## C3 — duplicate suppression is on raw rows, not canonical rows -/

/-- C3, counterexample.  `rawA` and `rawB` agree on every canonical
column and differ only in a non-canonical column, so `drop_duplicates`
(which runs before the projection to the canonical columns) keeps both:
the validator's output — and hence the persisted dataset — holds two
identical canonical records. -/
theorem C3_counterexample :
    rawA ≠ rawB ∧
    validate_quake_data [rawA, rawB] = some [canAB, canAB] ∧
    ¬ ([canAB, canAB] : List CanonicalRecord).Nodup :=
  ⟨by decide, by decide, by decide⟩

/-- C3, amended: the validator deduplicates on full raw-row equality
(every column, the non-canonical ones included): a batch with two
byte-identical raw records yields the output of the batch with one, and
the deduplicated surviving rows are pairwise distinct.  But two records
that agree on the canonical columns while differing in another column
both survive, so identical records can coexist in one persisted dataset
after projection (and nothing deduplicates across separate writes). -/
theorem C3_amended_thm (r : RawRecord) (batch : List RawRecord) :
    validate_quake_data (r :: r :: batch) = validate_quake_data (r :: batch) ∧
    (dropDupAux [] (survivors (r :: batch))).Nodup :=
  ⟨validate_dup_head r batch, nodup_dropDupAux _ _⟩

/-! ## C4 — range filtering -/

/-- C4, counterexample.  `rawC` passes every bound, yet its canonical
copy appears twice in the output — not exactly once — because `rawD`
projects to the same canonical record. -/
theorem C4_counterexample :
    (∃ p, parsedOf rawC = some p ∧ parsedOk p = true) ∧
    validate_quake_data [rawC, rawD] = some [canCD, canCD] ∧
    List.count canCD [canCD, canCD] = 2 :=
  ⟨⟨⟨86400, 17, 95, 30, 6, some "Bago", some "Myanmar", some "id1"⟩,
    rfl, rfl⟩, by decide, by decide⟩

/-- C4, amended: whenever the validator returns an output, every element
of it is the canonical form of some batch record whose timestamp parsed
in range and whose numeric fields all parsed within bounds (so every
out-of-range or unparseable record is excluded), and every batch record
that passes all those checks has its canonical form in the output — at
least once, with exactly-once guaranteed only up to full raw-row
equality, not canonical equality. -/
theorem C4_amended_thm (batch : List RawRecord) (out : List CanonicalRecord)
    (h : validate_quake_data batch = some out) :
    (∀ c ∈ out, ∃ r ∈ batch, ∃ p, parsedOf r = some p ∧ parsedOk p = true ∧
      toCanonical p = c) ∧
    (∀ r ∈ batch, ∀ p, parsedOf r = some p → parsedOk p = true →
      toCanonical p ∈ out) := by
  rcases validate_eq_some batch out h with ⟨hemp, rfl⟩ | rfl
  · refine ⟨by simp, fun r hr p hp _ => ?_⟩
    rcases parsedOf_eq_some r p hp with ⟨ht, -, -, -, -⟩
    have hall := List.all_eq_true.mp hemp r hr
    rw [ht] at hall
    simp at hall
  · constructor
    · intro c hc
      rcases List.mem_map.mp hc with ⟨p, hp, rfl⟩
      have hmem := (mem_dropDupAux p (survivors batch) []).mp hp
      rcases (mem_survivors batch p).mp hmem.1 with ⟨⟨r, hr, hpr⟩, hok⟩
      exact ⟨r, hr, p, hpr, hok, rfl⟩
    · intro r hr p hp hok
      apply List.mem_map_of_mem toCanonical
      exact (mem_dropDupAux p (survivors batch) []).mpr
        ⟨(mem_survivors batch p).mpr ⟨⟨r, hr, hp⟩, hok⟩, by simp⟩

theorem C4_amended_witness :
    (∀ c ∈ [canCD], ∃ r ∈ [rawC], ∃ p, parsedOf r = some p ∧
      parsedOk p = true ∧ toCanonical p = c) ∧
    (∀ r ∈ [rawC], ∀ p, parsedOf r = some p → parsedOk p = true →
      toCanonical p ∈ [canCD]) :=
  C4_amended_thm [rawC] [canCD] (by decide)

/-! ## C5 — `location` and `country` are not optional at batch level -/

/-- C5, counterexample.  A one-record batch with a parseable in-range
timestamp and in-bounds numeric fields but no `location` and no
`country` key makes the validator fail (the `df[cols_order]` projection
raises `KeyError`) instead of completing. -/
theorem C5_counterexample :
    (∃ p, parsedOf rawE = some p ∧ parsedOk p = true) ∧
    validate_quake_data [rawE] = none :=
  ⟨⟨⟨0, 16, 96, 10, 5, none, none, none⟩, rfl, rfl⟩, by decide⟩

/-- C5, amended: `location` and `country` are optional per record but
not per batch.  When at least one record of the batch carries each of
the two keys, the validator completes without error and any record with
a parseable in-range timestamp and in-bounds numeric fields — its own
`location`/`country` possibly missing — is returned in canonical form. -/
theorem C5_amended_thm (batch : List RawRecord)
    (hloc : hasCol (fun r => r.location.isSome) batch = true)
    (hcty : hasCol (fun r => r.country.isSome) batch = true)
    (r : RawRecord) (hr : r ∈ batch) (p : ParsedRecord)
    (hp : parsedOf r = some p) (hok : parsedOk p = true) :
    ∃ out, validate_quake_data batch = some out ∧ toCanonical p ∈ out := by
  obtain ⟨ht, hla, hlo, hde, hma⟩ := parsedOf_eq_some r p hp
  have hne : isEmptyDf batch = false := by
    cases hb : isEmptyDf batch with
    | false => rfl
    | true =>
      have hall := List.all_eq_true.mp hb r hr
      rw [ht] at hall
      simp at hall
  refine ⟨_, validate_success batch hne
    (List.any_eq_true.mpr ⟨r, hr, by rw [ht]; rfl⟩)
    (List.any_eq_true.mpr ⟨r, hr, by rw [hla]; rfl⟩)
    (List.any_eq_true.mpr ⟨r, hr, by rw [hlo]; rfl⟩)
    (List.any_eq_true.mpr ⟨r, hr, by rw [hde]; rfl⟩)
    (List.any_eq_true.mpr ⟨r, hr, by rw [hma]; rfl⟩)
    hloc hcty, ?_⟩
  apply List.mem_map_of_mem toCanonical
  exact (mem_dropDupAux p (survivors batch) []).mpr
    ⟨(mem_survivors batch p).mpr ⟨⟨r, hr, hp⟩, hok⟩, by simp⟩

/-- The parsed row of `rawA`, used to instantiate `C5_amended_thm`. -/
def parsedA : ParsedRecord :=
  ⟨0, 16, 96, 10, 5, some "Mandalay", some "Myanmar", some "a"⟩

theorem C5_amended_witness :
    ∃ out, validate_quake_data [rawA] = some out ∧ toCanonical parsedA ∈ out :=
  C5_amended_thm [rawA] (by decide) (by decide) rawA (by decide) parsedA
    (by decide) (by decide)

/-! ## C6 — a failed fetch is isolated -/

theorem mainCombined_length (outcomes : List HttpOutcome)
    (l : List CanonicalRecord) (h : mainCombined outcomes = some l) :
    l.length = (outcomes.map validCount).sum := by
  induction outcomes generalizing l with
  | nil =>
    injection h with h'
    subst h'
    rfl
  | cons o os ih =>
    unfold mainCombined at h
    split at h
    next v rest hv hrest =>
      injection h with h'
      subst h'
      simp [validCount, hv, ih rest hrest]
    next => exact absurd h (by simp)

theorem sum_map_eraseIdx (f : HttpOutcome → Nat) :
    ∀ (l : List HttpOutcome) (i : Nat) (hi : i < l.length),
      f (l.get ⟨i, hi⟩) = 0 →
      ((l.eraseIdx i).map f).sum = (l.map f).sum
  | [], i, hi, _ => absurd hi (by simp)
  | a :: t, 0, _, h0 => by
    simp only [List.get] at h0
    simp [List.eraseIdx, h0]
  | a :: t, i + 1, hi, h0 => by
    have ih := sum_map_eraseIdx f t i (by simpa using hi) (by simpa using h0)
    simp only [List.eraseIdx, List.map_cons, List.sum_cons, ih]

/-- C6.  A failed request yields an empty record set rather than an
error, and a run whose window `i` failed still accumulates every other
window: the final combined record count is the sum of the valid record
counts of all windows except window `i`. -/
theorem C6_thm (outcomes : List HttpOutcome) (i : Nat)
    (hi : i < outcomes.length)
    (hfail : outcomes.get ⟨i, hi⟩ = HttpOutcome.err)
    (l : List CanonicalRecord) (h : mainCombined outcomes = some l) :
    fetch_quake_data HttpOutcome.err = [] ∧
    l.length = ((outcomes.eraseIdx i).map validCount).sum := by
  refine ⟨rfl, ?_⟩
  rw [sum_map_eraseIdx validCount outcomes i hi (by rw [hfail]; rfl)]
  exact mainCombined_length outcomes l h

theorem C6_witness :
    fetch_quake_data HttpOutcome.err = [] ∧
    ([canAB] : List CanonicalRecord).length =
      (([HttpOutcome.ok (some [rawA]), HttpOutcome.err].eraseIdx 1).map
        validCount).sum :=
  C6_thm [HttpOutcome.ok (some [rawA]), HttpOutcome.err] 1 (by decide) rfl
    [canAB] (by decide)

end MMEQ
